import Mathlib

/-!
# ChatApi: the message store and the POST /messages handler

A shallow embedding of `src/database.js` (class `Database`) and of the
`POST /messages` handler of `src/index.js`.

* The SQLite table `messages` is a list of rows in rowid order.
* Everything the handler awaits from outside (the clock behind
  `CURRENT_TIMESTAMP`, driver failures, the completion endpoint) is an explicit
  argument, so the handler is a pure function of the store, the request body
  and those answers.
* The handler returns the new store, the HTTP response and the list of calls
  it made, in the order it made them.
-/

namespace ChatApi

/-! ## JavaScript values and strings -/

/-- A property value of the parsed JSON body, as far as the handler looks at it.
`undefined` is what destructuring yields for an absent property. Arrays and
nested objects are `object` (truthy, `typeof` gives "object"); the handler never
looks inside them, so only their JSON text is kept. A number is kept as an
integer, zero for the JSON numbers that parse to zero: the handler only tests
a number for being zero. -/
inductive JsValue where
  | undefined
  | null
  | bool (b : Bool)
  | number (n : Int)
  | string (s : String)
  | object (json : String)
  deriving DecidableEq, Repr

/-- JavaScript truthiness, the test behind `!threadId` and `!content`. -/
def JsValue.truthy : JsValue → Bool
  | .undefined => false
  | .null => false
  | .bool b => b
  | .number n => n != 0
  | .string s => s != ""
  | .object _ => true

/-- The JavaScript `typeof` operator. -/
def JsValue.typeof : JsValue → String
  | .undefined => "undefined"
  | .null => "object"
  | .bool _ => "boolean"
  | .number _ => "number"
  | .string _ => "string"
  | .object _ => "object"

/-- Code points removed by `String.prototype.trim`: ECMAScript WhiteSpace and
LineTerminator. -/
def isJsWhitespace (c : Char) : Bool :=
  let n := c.toNat
  n == 0x09 || n == 0x0A || n == 0x0B || n == 0x0C || n == 0x0D || n == 0x20 ||
  n == 0xA0 || n == 0x1680 || (0x2000 ≤ n && n ≤ 0x200A) || n == 0x2028 ||
  n == 0x2029 || n == 0x202F || n == 0x205F || n == 0x3000 || n == 0xFEFF

/-- `String.prototype.trim`: drop whitespace from both ends. -/
def jsTrim (s : String) : String :=
  String.mk ((s.toList.dropWhile isJsWhitespace).reverse.dropWhile isJsWhitespace).reverse

/-- The parsed request body `await request.json()`. Destructuring
`const { threadId, content } = body` throws on `null`; on any other value it
reads the two properties, `undefined` when absent (also when the body is a
string, a number or an array). -/
inductive Body where
  | null
  | props (threadId content : JsValue)
  deriving DecidableEq, Repr

/-! ## Errors -/

deriving instance DecidableEq for Except

/-- A driver failure reported by sqlite3: result-code name and message. -/
structure SqliteFailure where
  name : String
  message : String
  deriving DecidableEq, Repr

/-- The errors that reach the `catch` block of the handler. -/
inductive JsError where
  /-- A `TypeError` raised by the runtime; it has no `code` property. -/
  | typeError (message : String)
  /-- An error of the sqlite3 driver; its `code` is `SQLITE_` and the result-code name. -/
  | sqlite (name : String) (message : String)
  /-- An error thrown by the completion client; `code` may be absent. -/
  | api (code : Option String) (message : String)
  deriving DecidableEq, Repr

/-- The `error.code` property. -/
def JsError.code : JsError → Option String
  | .typeError _ => none
  | .sqlite name _ => some ("SQLITE_" ++ name)
  | .api code _ => code

/-- The `error.message` property. -/
def JsError.message : JsError → String
  | .typeError m => m
  | .sqlite _ m => m
  | .api _ m => m

/-! ## The store (`src/database.js`) -/

/-- One row of table `messages`. `created_at` is the `CURRENT_TIMESTAMP` of
the insert, a count of whole seconds. -/
structure Message where
  id : Nat
  thread_id : String
  role : String
  content : String
  created_at : Nat
  deriving DecidableEq, Repr

/-- The sqlite3 handle held in `this.db`: whether it is still open, the rows of
`messages` in rowid order, and the AUTOINCREMENT high-water mark. -/
structure Connection where
  isOpen : Bool
  rows : List Message
  seq : Nat
  deriving DecidableEq, Repr

/-- The `Database` object: `this.db` is `null` or a handle. -/
structure Database where
  db : Option Connection
  deriving DecidableEq, Repr

/-- The `constructor`: `this.db = null`. -/
def Database.new : Database := ⟨none⟩

/-- The id AUTOINCREMENT assigns next: one more than the largest rowid ever used. -/
def Connection.nextId (conn : Connection) : Nat :=
  max conn.seq (conn.rows.foldl (fun m r => max m r.id) 0) + 1

/-- What the outside contributes to one INSERT: the clock reading and whether
the driver reports a failure. -/
structure SaveEnv where
  now : Nat
  failure : Option SqliteFailure
  deriving DecidableEq, Repr

/-- `saveMessage(threadId, role, content)`: one INSERT. `content` is a string
or `null` (`none`). The promise rejects when `this.db` is `null`, when the
handle is closed, when the driver fails, and when a column constraint
(`NOT NULL`, `CHECK (role IN (user, assistant))`) fails; otherwise the row is
appended and the promise resolves to its id. -/
def Database.saveMessage (self : Database) (env : SaveEnv) (threadId role : String)
    (content : Option String) : Except JsError (Database × Nat) :=
  match self.db with
  | none => .error (.typeError "Cannot read properties of null (reading run)")
  | some conn =>
    if conn.isOpen = false then
      .error (.sqlite "MISUSE" "SQLITE_MISUSE: Database is closed")
    else
      match env.failure with
      | some f => .error (.sqlite f.name f.message)
      | none =>
        match content with
        | none =>
          .error (.sqlite "CONSTRAINT"
            "SQLITE_CONSTRAINT: NOT NULL constraint failed: messages.content")
        | some text =>
          if role = "user" ∨ role = "assistant" then
            let id := conn.nextId
            .ok (⟨some { conn with
                    rows := conn.rows ++ [⟨id, threadId, role, text, env.now⟩]
                    seq := id }⟩, id)
          else
            .error (.sqlite "CONSTRAINT" "SQLITE_CONSTRAINT: CHECK constraint failed: role")

/-- How the engine arranges the selected rows for `ORDER BY created_at ASC`. -/
abbrev RowOrder := List Message → List Message

/-- What `ORDER BY created_at ASC` promises: the selected rows, each once,
non-decreasing in `created_at`. The query names no second key, so the order
among rows with equal `created_at` is the engine's. -/
def OrderedByCreatedAt (selected result : List Message) : Prop :=
  result.Perm selected ∧ result.Pairwise (fun a b => a.created_at ≤ b.created_at)

/-- An engine that honours `ORDER BY created_at ASC` on every selection. -/
def RowOrder.Lawful (order : RowOrder) : Prop :=
  ∀ selected, OrderedByCreatedAt selected (order selected)

/-- The rows selected by `WHERE thread_id = ?`, in rowid order. -/
def Connection.threadRows (conn : Connection) (threadId : String) : List Message :=
  conn.rows.filter (fun m => m.thread_id = threadId)

/-- `getMessagesByThread(threadId)`: the SELECT. Rejects when `this.db` is
`null`, when the handle is closed and when the driver fails; otherwise
resolves to the selected rows as arranged by the engine. -/
def Database.getMessagesByThread (self : Database) (order : RowOrder)
    (failure : Option SqliteFailure) (threadId : String) : Except JsError (List Message) :=
  match self.db with
  | none => .error (.typeError "Cannot read properties of null (reading all)")
  | some conn =>
    if conn.isOpen = false then
      .error (.sqlite "MISUSE" "SQLITE_MISUSE: Database is closed")
    else
      match failure with
      | some f => .error (.sqlite f.name f.message)
      | none => .ok (order (conn.threadRows threadId))

/-- Result of `close()`: the object afterwards, the error the promise rejected
with (`none` when it resolved), and whether `this.db.close` was invoked. -/
structure CloseResult where
  database : Database
  rejected : Option JsError
  driverCloseCalled : Bool
  deriving DecidableEq, Repr

/-- `close()`: when `this.db` is set, `this.db.close` is invoked and the promise
settles as the driver reports (the driver refuses a handle that is already
closed); `this.db` itself is left as it is. When `this.db` is `null` the
promise resolves at once. -/
def Database.close (self : Database) (failure : Option SqliteFailure) : CloseResult :=
  match self.db with
  | some conn =>
    if conn.isOpen = false then
      ⟨self, some (.sqlite "MISUSE" "SQLITE_MISUSE: Database is closed"), true⟩
    else
      match failure with
      | some f => ⟨self, some (.sqlite f.name f.message), true⟩
      | none => ⟨⟨some { conn with isOpen := false }⟩, none, true⟩
  | none => ⟨self, none, false⟩

/-- What the outside contributes to `initialize()`: the table found in the
database file (empty when the file is new) and the failures the driver reports
on opening the file and on `CREATE TABLE IF NOT EXISTS`. -/
structure OpenEnv where
  rows : List Message
  seq : Nat
  openFailure : Option SqliteFailure
  createFailure : Option SqliteFailure
  deriving DecidableEq, Repr

/-- `initialize()`: `this.db` is assigned the new handle at once; the promise
rejects when opening or creating the table fails (`some` error) and resolves
otherwise. -/
def Database.initialize (_self : Database) (env : OpenEnv) : Database × Option JsError :=
  match env.openFailure with
  | some f => (⟨some ⟨false, env.rows, env.seq⟩⟩, some (.sqlite f.name f.message))
  | none =>
    match env.createFailure with
    | some f => (⟨some ⟨true, env.rows, env.seq⟩⟩, some (.sqlite f.name f.message))
    | none => (⟨some ⟨true, env.rows, env.seq⟩⟩, none)

/-! ## The handler of `POST /messages` (`src/index.js`) -/

/-- The three rejections of the input validation. -/
inductive ValidationError where
  | missingField
  | invalidType
  | emptyContent
  deriving DecidableEq, Repr

/-- The `error` text sent with each rejection. -/
def ValidationError.message : ValidationError → String
  | .missingField => "Missing required fields: threadId and content are required"
  | .invalidType => "Invalid field types: threadId and content must be strings"
  | .emptyContent => "Content cannot be empty"

/-- The three guards of the handler, in source order:
`!threadId || !content`, then the two `typeof` tests, then
`content.trim().length === 0`. On success the two strings are handed on. -/
def validate (threadId content : JsValue) : Except ValidationError (String × String) :=
  if !threadId.truthy || !content.truthy then
    .error .missingField
  else if threadId.typeof != "string" || content.typeof != "string" then
    .error .invalidType
  else
    match threadId, content with
    | .string t, .string c =>
      if (jsTrim c).length == 0 then .error .emptyContent else .ok (t, c)
    | _, _ => .error .invalidType

/-- One entry of the `messages` array sent to the completion endpoint. -/
structure ChatMessage where
  role : String
  content : String
  deriving DecidableEq, Repr

/-- The fixed system instruction put in front of the history. -/
def systemPrompt : ChatMessage :=
  ⟨"system",
   "You are a helpful AI assistant. Provide clear, concise, and accurate responses. Be friendly and professional in your interactions."⟩

/-- The completion returned by the endpoint: the `message.content` of each
choice, a string or `null`. -/
structure Completion where
  choices : List (Option String)
  deriving DecidableEq, Repr

/-- What the outside contributes to one request. -/
structure TurnEnv where
  /-- Whether `process.env.NODE_ENV === "development"`. -/
  development : Bool
  /-- Clock and driver for the INSERT of the user row. -/
  userSave : SaveEnv
  /-- Driver failure for the SELECT, if any. -/
  historyRead : Option SqliteFailure
  /-- The completion endpoint: the answer to each `messages` array. -/
  model : List ChatMessage → Except JsError Completion
  /-- Clock and driver for the INSERT of the assistant row. -/
  assistantSave : SaveEnv

/-- The JSON body of a response. -/
inductive ResponseBody where
  /-- The success body `content: assistantResponse`. -/
  | content (content : Option String)
  /-- An error body with `error` and, for the generic 500, `message`. -/
  | error (error : String) (message : Option String)
  deriving DecidableEq, Repr

/-- An HTTP response: status and JSON body. -/
structure Response where
  status : Nat
  body : ResponseBody
  deriving DecidableEq, Repr

/-- The calls the handler makes, recorded in the order made. -/
inductive Effect where
  | saveMessage (threadId role : String) (content : Option String)
  | getMessagesByThread (threadId : String)
  | chatCompletion (messages : List ChatMessage)
  deriving DecidableEq, Repr

/-- What one run of the handler leaves behind. -/
structure Outcome where
  database : Database
  response : Response
  effects : List Effect
  deriving DecidableEq, Repr

/-- The `catch` block: classification by `error.code`, then the generic 500. -/
def errorResponse (development : Bool) (error : JsError) : Response :=
  if error.code = some "insufficient_quota" then
    ⟨402, .error "OpenAI API quota exceeded" none⟩
  else if error.code = some "invalid_api_key" then
    ⟨401, .error "Invalid OpenAI API key" none⟩
  else
    ⟨500, .error "Internal server error"
      (some (if development then error.message else "Something went wrong"))⟩

/-- `openaiMessages`: the rows mapped to role and content, the system prompt
put in front. -/
def openaiMessages (messages : List Message) : List ChatMessage :=
  systemPrompt :: messages.map (fun msg => ⟨msg.role, msg.content⟩)

/-- The handler of `POST /messages`. -/
def postMessages (order : RowOrder) (env : TurnEnv) (database : Database) (body : Body) :
    Outcome :=
  match body with
  | .null =>
    ⟨database,
     errorResponse env.development (.typeError "Cannot destructure property threadId of body"),
     []⟩
  | .props threadId content =>
    match validate threadId content with
    | .error e => ⟨database, ⟨400, .error e.message none⟩, []⟩
    | .ok (threadId, content) =>
      let e1 := Effect.saveMessage threadId "user" (some content)
      match database.saveMessage env.userSave threadId "user" (some content) with
      | .error err => ⟨database, errorResponse env.development err, [e1]⟩
      | .ok (database, _) =>
        let e2 := Effect.getMessagesByThread threadId
        match database.getMessagesByThread order env.historyRead threadId with
        | .error err => ⟨database, errorResponse env.development err, [e1, e2]⟩
        | .ok messages =>
          let e3 := Effect.chatCompletion (openaiMessages messages)
          match env.model (openaiMessages messages) with
          | .error err => ⟨database, errorResponse env.development err, [e1, e2, e3]⟩
          | .ok completion =>
            match completion.choices.head? with
            | none =>
              ⟨database,
               errorResponse env.development
                 (.typeError "Cannot read properties of undefined (reading message)"),
               [e1, e2, e3]⟩
            | some assistantResponse =>
              let e4 := Effect.saveMessage threadId "assistant" assistantResponse
              match database.saveMessage env.assistantSave threadId "assistant"
                  assistantResponse with
              | .error err => ⟨database, errorResponse env.development err, [e1, e2, e3, e4]⟩
              | .ok (database, _) =>
                ⟨database, ⟨200, .content assistantResponse⟩, [e1, e2, e3, e4]⟩

/-- One request as it reaches the server: the body and what the outside
answers while it is handled. -/
structure Turn where
  env : TurnEnv
  body : Body

/-- The store after handling the requests one after the other. -/
def run (order : RowOrder) (database : Database) : List Turn → Database
  | [] => database
  | t :: ts => run order (postMessages order t.env database t.body).database ts

/-- The engine as SQLite behaves: the selected rows are scanned in rowid order
and sorted by `created_at`, and rows with equal `created_at` come back in the
order scanned, that is in rowid order. -/
def stableOrder : RowOrder :=
  fun selected => selected.insertionSort (fun a b => a.created_at ≤ b.created_at)

/-! ## Vocabulary of the properties -/

/-- A string made of whitespace only (the empty string included). -/
def WhitespaceOnly (s : String) : Prop :=
  ∀ c ∈ s.toList, isJsWhitespace c = true

instance (s : String) : Decidable (WhitespaceOnly s) := by
  unfold WhitespaceOnly; infer_instance

/-- The invalid requests as the specification lists them: `threadId` or
`content` missing, one of them not a string, or `content` whitespace-only. -/
def FailsValidation (threadId content : JsValue) : Prop :=
  threadId = .undefined ∨ content = .undefined ∨
  threadId.typeof ≠ "string" ∨ content.typeof ≠ "string" ∨
  ∃ c, content = .string c ∧ WhitespaceOnly c

/-- The payload of a call to the completion endpoint, `none` for other calls. -/
def Effect.payload? : Effect → Option (List ChatMessage)
  | .chatCompletion messages => some messages
  | _ => none

/-- The payloads of the calls made to the completion endpoint, in order. -/
def modelCalls (effects : List Effect) : List (List ChatMessage) :=
  effects.filterMap Effect.payload?

/-- An error raised by the store or by the runtime, not by the completion client. -/
def JsError.isLocal : JsError → Bool
  | .typeError _ => true
  | .sqlite _ _ => true
  | .api _ _ => false

/-! ## Sample data -/

/-- An initialized store with an empty table. -/
def emptyStore : Database := ⟨some ⟨true, [], 0⟩⟩

/-- A store whose thread `t1` holds one earlier turn, stamped 200 and 201. -/
def laterStore : Database :=
  ⟨some ⟨true, [⟨1, "t1", "user", "Hello", 200⟩, ⟨2, "t1", "assistant", "Hi", 201⟩], 2⟩⟩

/-- The outside when nothing fails: the clock reads 100 at the first INSERT
and 102 at the second, and the endpoint answers with the given reply. -/
def calmEnv (reply : String) : TurnEnv :=
  ⟨false, ⟨100, none⟩, none, fun _ => .ok ⟨[some reply]⟩, ⟨102, none⟩⟩

/-- The outside when the completion call fails with the given error. -/
def failingModelEnv (err : JsError) : TurnEnv :=
  ⟨false, ⟨100, none⟩, none, fun _ => .error err, ⟨102, none⟩⟩

/-- The outside when only the second INSERT fails, with the given failure. -/
def failingAssistantSaveEnv (reply : String) (f : SqliteFailure) : TurnEnv :=
  ⟨false, ⟨100, none⟩, none, fun _ => .ok ⟨[some reply]⟩, ⟨102, some f⟩⟩

/-- The outside when the first INSERT fails, with the given failure. -/
def failingUserSaveEnv (f : SqliteFailure) : TurnEnv :=
  ⟨false, ⟨100, some f⟩, none, fun _ => .ok ⟨[some "unused"]⟩, ⟨102, none⟩⟩

/-- What the handler guarantees of a stored row: its role is `user` or
`assistant`, and a user row has content that is not whitespace-only (so not
empty). -/
def Message.WellFormed (m : Message) : Prop :=
  (m.role = "user" ∨ m.role = "assistant") ∧
  (m.role = "user" → m.content ≠ "" ∧ ¬ WhitespaceOnly m.content)

/-- Every row of the table is well formed. -/
def MessageLogInvariant (database : Database) : Prop :=
  ∀ conn, database.db = some conn → ∀ m ∈ conn.rows, m.WellFormed

/-- The roles of `n` complete turns: user, assistant, user, assistant, ... -/
def alternating : Nat → List String
  | 0 => []
  | n + 1 => "user" :: "assistant" :: alternating n

/-- Every request of the list is for thread `threadId` and is answered 200,
each handled on the store the previous one left. -/
def AllSucceedOn (order : RowOrder) (threadId : String) : Database → List Turn → Prop
  | _, [] => True
  | database, t :: ts =>
    (∃ content, t.body = .props (.string threadId) content) ∧
    (postMessages order t.env database t.body).response.status = 200 ∧
    AllSucceedOn order threadId (postMessages order t.env database t.body).database ts

/-- The outside when nothing fails and the wall clock is set back between the
two INSERTs: it reads 100 at the first and 99 at the second. -/
def steppedBackEnv (reply : String) : TurnEnv :=
  ⟨false, ⟨100, none⟩, none, fun _ => .ok ⟨[some reply]⟩, ⟨99, none⟩⟩

/-- The order `created_at` ascending, ties broken by `id` ascending. -/
def ByCreatedAtThenId (a b : Message) : Prop :=
  a.created_at < b.created_at ∨ (a.created_at = b.created_at ∧ a.id < b.id)

/-! # Properties -/

/-! ## Validation -/

theorem trimmed_eq_nil_iff {α : Type} (p : α → Bool) (l : List α) :
    ((l.dropWhile p).reverse.dropWhile p).reverse = [] ↔ ∀ x ∈ l, p x = true := by
  rw [List.reverse_eq_nil_iff, List.dropWhile_eq_nil_iff]
  constructor
  · intro h
    have hnil : l.dropWhile p = [] := by
      cases hd : l.dropWhile p with
      | nil => rfl
      | cons x xs =>
        have hx : p x = true := h x (by rw [hd]; simp)
        have hne : l.dropWhile p ≠ [] := by rw [hd]; simp
        have hhead := List.head_dropWhile_not p l hne
        have hxe : (l.dropWhile p).head hne = x := by
          simp only [hd, List.head_cons]
        rw [hxe, hx] at hhead
        exact absurd hhead (by simp)
    exact List.dropWhile_eq_nil_iff.mp hnil
  · intro h x hx
    have hnil : l.dropWhile p = [] := List.dropWhile_eq_nil_iff.mpr h
    rw [hnil] at hx
    simp at hx

theorem string_mk_eq_empty_iff (l : List Char) : String.mk l = "" ↔ l = [] := by
  constructor
  · intro h
    have := congrArg String.data h
    simpa using this
  · intro h
    subst h
    rfl

theorem jsTrim_eq_empty_iff (s : String) : jsTrim s = "" ↔ WhitespaceOnly s := by
  unfold jsTrim WhitespaceOnly
  rw [string_mk_eq_empty_iff]
  exact trimmed_eq_nil_iff isJsWhitespace s.toList

theorem jsTrim_length_eq_zero_iff (s : String) : (jsTrim s).length = 0 ↔ jsTrim s = "" := by
  unfold jsTrim
  rw [string_mk_eq_empty_iff]
  show List.length _ = 0 ↔ _
  exact List.length_eq_zero

theorem typeof_eq_string_iff (v : JsValue) : v.typeof = "string" ↔ ∃ s, v = .string s := by
  cases v <;> simp [JsValue.typeof]

theorem truthy_eq_false_iff (v : JsValue) :
    v.truthy = false ↔
      v = .undefined ∨ v = .null ∨ v = .bool false ∨ v = .number 0 ∨ v = .string "" := by
  cases v <;> simp [JsValue.truthy]

theorem validate_string_string (t c : String) :
    validate (.string t) (.string c) =
      if t = "" ∨ c = "" then .error .missingField
      else if jsTrim c = "" then .error .emptyContent
      else .ok (t, c) := by
  by_cases ht : t = "" <;> by_cases hc : c = "" <;>
    by_cases hw : jsTrim c = "" <;>
    simp [validate, JsValue.truthy, JsValue.typeof, ht, hc, hw, jsTrim_length_eq_zero_iff]

theorem validate_not_strings (threadId content : JsValue)
    (h : threadId.typeof ≠ "string" ∨ content.typeof ≠ "string") :
    validate threadId content =
      if threadId.truthy = false ∨ content.truthy = false then .error .missingField
      else .error .invalidType := by
  cases threadId <;> cases content <;>
    simp [JsValue.typeof] at h <;>
    simp [validate, JsValue.truthy, JsValue.typeof]

theorem validate_ok_iff (threadId content : JsValue) (t c : String) :
    validate threadId content = .ok (t, c) ↔
      threadId = .string t ∧ content = .string c ∧ t ≠ "" ∧ jsTrim c ≠ "" := by
  by_cases hs : threadId.typeof ≠ "string" ∨ content.typeof ≠ "string"
  · rw [validate_not_strings _ _ hs]
    constructor
    · intro h
      split at h <;> simp at h
    · rintro ⟨h1, h2, -, -⟩
      subst h1 h2
      simp [JsValue.typeof] at hs
  · simp only [not_or, not_not, typeof_eq_string_iff] at hs
    obtain ⟨⟨t', rfl⟩, ⟨c', rfl⟩⟩ := hs
    rw [validate_string_string]
    by_cases ht : t' = "" <;> by_cases hc : c' = "" <;> by_cases hw : jsTrim c' = "" <;>
      simp [ht, hc, hw]
    all_goals
      intro h1 h2
      subst h1 h2
      first
        | exact fun h => absurd ht h
        | exact fun h => absurd rfl h
        | exact fun _ => hw
        | exact fun _ => by decide
        | exact ⟨ht, hw⟩

theorem validate_error_outcome (order : RowOrder) (env : TurnEnv) (database : Database)
    (threadId content : JsValue) (e : ValidationError)
    (h : validate threadId content = .error e) :
    postMessages order env database (.props threadId content) =
      ⟨database, ⟨400, .error e.message none⟩, []⟩ := by
  simp [postMessages, h]

theorem failsValidation_rejected (threadId content : JsValue)
    (h : FailsValidation threadId content) : ∃ e, validate threadId content = .error e := by
  by_cases hs : threadId.typeof ≠ "string" ∨ content.typeof ≠ "string"
  · rw [validate_not_strings _ _ hs]
    split
    · exact ⟨_, rfl⟩
    · exact ⟨_, rfl⟩
  · have hs2 := hs
    simp only [not_or, not_not, typeof_eq_string_iff] at hs2
    obtain ⟨⟨t, rfl⟩, ⟨c, rfl⟩⟩ := hs2
    rcases h with h | h | h | h | ⟨c', hc', hw⟩
    · cases h
    · cases h
    · exact absurd (Or.inl h) hs
    · exact absurd (Or.inr h) hs
    · cases hc'
      rw [validate_string_string]
      have hw2 : jsTrim c = "" := (jsTrim_eq_empty_iff c).mpr hw
      by_cases h1 : t = "" ∨ c = ""
      · rw [if_pos h1]
        exact ⟨_, rfl⟩
      · rw [if_neg h1, if_pos hw2]
        exact ⟨_, rfl⟩

theorem invalid_props_rejected (order : RowOrder) (env : TurnEnv) (database : Database)
    (threadId content : JsValue)
    (h : FailsValidation threadId content ∨ ∃ e, validate threadId content = .error e) :
    (postMessages order env database (.props threadId content)).response.status = 400 ∧
    (postMessages order env database (.props threadId content)).database = database ∧
    (postMessages order env database (.props threadId content)).effects = [] := by
  have he : ∃ e, validate threadId content = .error e := by
    rcases h with h | h
    · exact failsValidation_rejected _ _ h
    · exact h
  obtain ⟨e, he⟩ := he
  rw [validate_error_outcome order env database threadId content e he]
  exact ⟨rfl, rfl, rfl⟩

/-- C2 (a defect of the code): a request whose JSON body is `null` has neither
`threadId` nor `content`, yet it is answered with the generic 500 and not with
400: destructuring the body throws before the guards run. The store is
unchanged and no call is made. Every other request that fails validation (as
the specification lists the failures, or any other request one of the three
guards rejects) is answered 400, leaves the store as it was and makes no call;
the empty object, which lacks both fields like `null` does, gets the
MissingField message. -/
theorem C2_null_body_answered_500 (order : RowOrder) (env : TurnEnv) (database : Database) :
    ((postMessages order env database .null).response.status = 500 ∧
      (∃ message, (postMessages order env database .null).response.body =
        .error "Internal server error" (some message)) ∧
      (postMessages order env database .null).database = database ∧
      (postMessages order env database .null).effects = []) ∧
    postMessages order env database (.props .undefined .undefined) =
      ⟨database,
       ⟨400, .error "Missing required fields: threadId and content are required" none⟩,
       []⟩ ∧
    (∀ threadId content : JsValue,
      (FailsValidation threadId content ∨ ∃ e, validate threadId content = .error e) →
      (postMessages order env database (.props threadId content)).response.status = 400 ∧
      (postMessages order env database (.props threadId content)).database = database ∧
      (postMessages order env database (.props threadId content)).effects = []) := by
  refine ⟨?_, ?_, fun threadId content h =>
    invalid_props_rejected order env database threadId content h⟩
  · have hout : postMessages order env database .null =
        ⟨database,
         ⟨500, .error "Internal server error"
            (some (if env.development then
              (JsError.typeError "Cannot destructure property threadId of body").message
              else "Something went wrong"))⟩,
         []⟩ := by
      simp [postMessages, errorResponse, JsError.code]
    rw [hout]
    exact ⟨rfl, ⟨_, rfl⟩, rfl, rfl⟩
  · exact validate_error_outcome order env database .undefined .undefined .missingField rfl

/-- C6 (as amended): the three guards run in order and each rejection carries
its own message. A request is rejected as MissingField exactly when `threadId`
or `content` is falsy, that is absent, `null`, `false`, `0` or the empty
string; as InvalidType exactly when both are truthy and one of them is not a
string; as EmptyContent exactly when both are non-empty strings and `content`
is whitespace-only. Every rejection is answered 400 with the message of its
condition. -/
theorem C6_validation_in_order (threadId content : JsValue) :
    (validate threadId content = .error .missingField ↔
      (threadId.truthy = false ∨ content.truthy = false)) ∧
    (validate threadId content = .error .invalidType ↔
      (threadId.truthy = true ∧ content.truthy = true ∧
        (threadId.typeof ≠ "string" ∨ content.typeof ≠ "string"))) ∧
    (validate threadId content = .error .emptyContent ↔
      ∃ t c, threadId = .string t ∧ content = .string c ∧ t ≠ "" ∧ c ≠ "" ∧
        WhitespaceOnly c) ∧
    (∀ v : JsValue, v.truthy = false ↔
      v = .undefined ∨ v = .null ∨ v = .bool false ∨ v = .number 0 ∨ v = .string "") ∧
    (∀ (e : ValidationError) (order : RowOrder) (env : TurnEnv) (database : Database),
      validate threadId content = .error e →
        (postMessages order env database (.props threadId content)).response =
          ⟨400, .error e.message none⟩) := by
  refine ⟨?_, ?_, ?_, truthy_eq_false_iff, ?_⟩
  · by_cases hs : threadId.typeof ≠ "string" ∨ content.typeof ≠ "string"
    · rw [validate_not_strings _ _ hs]
      split <;> simp_all
    · simp only [not_or, not_not, typeof_eq_string_iff] at hs
      obtain ⟨⟨t, rfl⟩, ⟨c, rfl⟩⟩ := hs
      rw [validate_string_string]
      by_cases ht : t = "" <;> by_cases hc : c = "" <;> by_cases hw : jsTrim c = "" <;>
        simp [JsValue.truthy, ht, hc, hw]
  · by_cases hs : threadId.typeof ≠ "string" ∨ content.typeof ≠ "string"
    · rw [validate_not_strings _ _ hs]
      by_cases h1 : threadId.truthy = false <;> by_cases h2 : content.truthy = false <;>
        simp_all
    · have hs2 := hs
      simp only [not_or, not_not, typeof_eq_string_iff] at hs2
      obtain ⟨⟨t, rfl⟩, ⟨c, rfl⟩⟩ := hs2
      rw [validate_string_string]
      by_cases ht : t = "" <;> by_cases hc : c = "" <;> by_cases hw : jsTrim c = "" <;>
        simp [JsValue.truthy, JsValue.typeof, ht, hc, hw]
  · by_cases hs : threadId.typeof ≠ "string" ∨ content.typeof ≠ "string"
    · rw [validate_not_strings _ _ hs]
      constructor
      · intro h
        split at h <;> simp at h
      · rintro ⟨t, c, rfl, rfl, -⟩
        simp [JsValue.typeof] at hs
    · simp only [not_or, not_not, typeof_eq_string_iff] at hs
      obtain ⟨⟨t, rfl⟩, ⟨c, rfl⟩⟩ := hs
      rw [validate_string_string]
      simp only [JsValue.string.injEq, ← jsTrim_eq_empty_iff]
      by_cases ht : t = "" <;> by_cases hc : c = "" <;> by_cases hw : jsTrim c = "" <;>
        simp [ht, hc, hw]
  · intro e order env database h
    rw [validate_error_outcome order env database threadId content e h]

/-- C6 as stated fails: with `threadId` a proper string, `content = 0`,
`content = false` and `content = ""` are all present values, and each is
rejected by the first guard with the MissingField message, not as InvalidType
or EmptyContent. -/
theorem C6_counterexample :
    (postMessages stableOrder (calmEnv "r") emptyStore
        (.props (.string "t1") (.number 0))).response =
      ⟨400, .error "Missing required fields: threadId and content are required" none⟩ ∧
    (postMessages stableOrder (calmEnv "r") emptyStore
        (.props (.string "t1") (.bool false))).response =
      ⟨400, .error "Missing required fields: threadId and content are required" none⟩ ∧
    (postMessages stableOrder (calmEnv "r") emptyStore
        (.props (.string "t1") (.string ""))).response =
      ⟨400, .error "Missing required fields: threadId and content are required" none⟩ := by
  decide

/-! ## The store -/

theorem foldl_max_id_ge (l : List Message) (a : Nat) :
    a ≤ l.foldl (fun m r => max m r.id) a ∧
      ∀ r ∈ l, r.id ≤ l.foldl (fun m r => max m r.id) a := by
  induction l generalizing a with
  | nil => simp
  | cons x xs ih =>
    simp only [List.foldl_cons, List.mem_cons, forall_eq_or_imp]
    obtain ⟨h1, h2⟩ := ih (max a x.id)
    exact ⟨le_trans (le_max_left _ _) h1, le_trans (le_max_right _ _) h1, h2⟩

theorem id_lt_nextId (conn : Connection) : ∀ r ∈ conn.rows, r.id < conn.nextId := by
  intro r hr
  have h := (foldl_max_id_ge conn.rows 0).2 r hr
  unfold Connection.nextId
  exact Nat.lt_succ_of_le (le_trans h (le_max_right _ _))

theorem seq_lt_nextId (conn : Connection) : conn.seq < conn.nextId := by
  unfold Connection.nextId
  exact Nat.lt_succ_of_le (le_max_left _ _)

theorem saveMessage_ok_iff (database : Database) (env : SaveEnv) (threadId role : String)
    (content : Option String) (database' : Database) (id : Nat) :
    database.saveMessage env threadId role content = .ok (database', id) ↔
      ∃ conn text, database.db = some conn ∧ conn.isOpen = true ∧ env.failure = none ∧
        content = some text ∧ (role = "user" ∨ role = "assistant") ∧ id = conn.nextId ∧
        database' =
          ⟨some ⟨true, conn.rows ++ [⟨conn.nextId, threadId, role, text, env.now⟩],
            conn.nextId⟩⟩ := by
  obtain ⟨db⟩ := database
  cases db with
  | none => simp [Database.saveMessage]
  | some conn =>
    obtain ⟨isOpen, rows, seq⟩ := conn
    cases isOpen with
    | false => simp [Database.saveMessage]
    | true =>
      cases hf : env.failure with
      | some f => simp [Database.saveMessage, hf]
      | none =>
        cases content with
        | none => simp [Database.saveMessage, hf]
        | some text =>
          by_cases hr : role = "user" ∨ role = "assistant"
          · simp [Database.saveMessage, hf, hr]
            constructor
            · rintro ⟨h1, h2⟩
              exact ⟨h2.symm, h1.symm⟩
            · rintro ⟨h1, h2⟩
              exact ⟨h2.symm, h1.symm⟩
          · simp [Database.saveMessage, hf, hr]

theorem sqlite_code_ne_quota (name : String) : "SQLITE_" ++ name ≠ "insufficient_quota" := by
  intro h
  have := congrArg String.data h
  simp [String.data_append] at this

theorem sqlite_code_ne_key (name : String) : "SQLITE_" ++ name ≠ "invalid_api_key" := by
  intro h
  have := congrArg String.data h
  simp [String.data_append] at this

theorem errorResponse_local (development : Bool) (err : JsError) (h : err.isLocal = true) :
    errorResponse development err =
      ⟨500, .error "Internal server error"
        (some (if development then err.message else "Something went wrong"))⟩ := by
  cases err with
  | typeError m => simp [errorResponse, JsError.code]
  | sqlite n m =>
    simp [errorResponse, JsError.code, sqlite_code_ne_quota, sqlite_code_ne_key]
  | api c m => simp [JsError.isLocal] at h

theorem saveMessage_error_local (database : Database) (env : SaveEnv) (threadId role : String)
    (content : Option String) (err : JsError)
    (h : database.saveMessage env threadId role content = .error err) :
    err.isLocal = true := by
  unfold Database.saveMessage at h
  repeat' split at h
  all_goals first
    | (cases h; rfl)
    | (simp at h)

theorem getMessagesByThread_error_local (database : Database) (order : RowOrder)
    (failure : Option SqliteFailure) (threadId : String) (err : JsError)
    (h : database.getMessagesByThread order failure threadId = .error err) :
    err.isLocal = true := by
  unfold Database.getMessagesByThread at h
  repeat' split at h
  all_goals first
    | (cases h; rfl)
    | (simp at h)

theorem getMessagesByThread_ok_iff (database : Database) (order : RowOrder)
    (failure : Option SqliteFailure) (threadId : String) (messages : List Message) :
    database.getMessagesByThread order failure threadId = .ok messages ↔
      ∃ conn, database.db = some conn ∧ conn.isOpen = true ∧ failure = none ∧
        messages = order (conn.threadRows threadId) := by
  obtain ⟨db⟩ := database
  cases db with
  | none => simp [Database.getMessagesByThread]
  | some conn =>
    cases ho : conn.isOpen with
    | false => simp [Database.getMessagesByThread, ho]
    | true =>
      cases failure with
      | some f => simp [Database.getMessagesByThread, ho]
      | none =>
        simp [Database.getMessagesByThread, ho]
        exact eq_comm

theorem saveMessage_ok_rows (database : Database) (env : SaveEnv) (threadId role text : String)
    (database' : Database) (id : Nat)
    (h : database.saveMessage env threadId role (some text) = .ok (database', id)) :
    ∃ conn, database.db = some conn ∧ conn.isOpen = true ∧ id = conn.nextId ∧
      database' = ⟨some ⟨true, conn.rows ++ [⟨id, threadId, role, text, env.now⟩], id⟩⟩ := by
  obtain ⟨conn, text', hc, ho, -, ht, -, hid, hd⟩ := (saveMessage_ok_iff _ _ _ _ _ _ _).mp h
  simp only [Option.some.injEq] at ht
  subst ht hid
  exact ⟨conn, hc, ho, rfl, hd⟩

/-! ## The handler on a valid request -/

/-- C1: on a valid request for which both appends, the history read and the
completion call succeed with reply `r`, the handler answers 200 with body
`content: r` and leaves the table as it was plus exactly two rows at its end,
both of the request's thread: first the user row holding the submitted content
verbatim, then the assistant row holding `r`, with increasing ids. The rows of
every other thread are untouched. -/
theorem C1_successful_turn (order : RowOrder) (env : TurnEnv) (database db1 db2 : Database)
    (tidV contentV : JsValue) (threadId content r : String) (id1 id2 : Nat)
    (messages : List Message) (completion : Completion)
    (hvalid : validate tidV contentV = .ok (threadId, content))
    (h1 : database.saveMessage env.userSave threadId "user" (some content) = .ok (db1, id1))
    (h2 : db1.getMessagesByThread order env.historyRead threadId = .ok messages)
    (h3 : env.model (openaiMessages messages) = .ok completion)
    (hr : completion.choices.head? = some (some r))
    (h4 : db1.saveMessage env.assistantSave threadId "assistant" (some r) = .ok (db2, id2)) :
    contentV = .string content ∧
    (postMessages order env database (.props tidV contentV)).response =
      ⟨200, .content (some r)⟩ ∧
    (postMessages order env database (.props tidV contentV)).database = db2 ∧
    ∃ conn conn2, database.db = some conn ∧ db2.db = some conn2 ∧
      conn2.rows = conn.rows ++
        [⟨id1, threadId, "user", content, env.userSave.now⟩,
         ⟨id2, threadId, "assistant", r, env.assistantSave.now⟩] ∧
      (∀ m ∈ conn.rows, m.id < id1) ∧ id1 < id2 ∧
      conn2.threadRows threadId = conn.threadRows threadId ++
        [⟨id1, threadId, "user", content, env.userSave.now⟩,
         ⟨id2, threadId, "assistant", r, env.assistantSave.now⟩] ∧
      ∀ other, other ≠ threadId → conn2.threadRows other = conn.threadRows other := by
  have hout : postMessages order env database (.props tidV contentV) =
      ⟨db2, ⟨200, .content (some r)⟩,
        [.saveMessage threadId "user" (some content), .getMessagesByThread threadId,
         .chatCompletion (openaiMessages messages),
         .saveMessage threadId "assistant" (some r)]⟩ := by
    simp only [postMessages, hvalid, h1, h2, h3, hr, h4]
  obtain ⟨conn, hc, -, hid1, hd1⟩ := saveMessage_ok_rows _ _ _ _ _ _ _ h1
  obtain ⟨conn1, hc1, -, hid2, hd2⟩ := saveMessage_ok_rows _ _ _ _ _ _ _ h4
  subst hd1
  simp only [Option.some.injEq] at hc1
  subst hc1
  subst hd2
  refine ⟨((validate_ok_iff _ _ _ _).mp hvalid).2.1, by rw [hout], by rw [hout], conn, _, hc,
    rfl, by simp, ?_, ?_, ?_, ?_⟩
  · intro m hm
    rw [hid1]
    exact id_lt_nextId conn m hm
  · rw [hid2]
    exact seq_lt_nextId
      ⟨true, conn.rows ++ [⟨id1, threadId, "user", content, env.userSave.now⟩], id1⟩
  · obtain ⟨isOpen, rows, seq⟩ := conn
    simp [Connection.threadRows, List.filter_append]
  · intro other hne
    obtain ⟨isOpen, rows, seq⟩ := conn
    simp [Connection.threadRows, List.filter_append, Ne.symm hne]

/-- C1 at a concrete request: `"  Hello "` sent to thread `t1` of an empty
store, the endpoint replying `"Hi there"`. -/
theorem C1_successful_turn_witness :
    (postMessages stableOrder (calmEnv "Hi there") emptyStore
        (.props (.string "t1") (.string "  Hello "))).response =
      ⟨200, .content (some "Hi there")⟩ ∧
    (postMessages stableOrder (calmEnv "Hi there") emptyStore
        (.props (.string "t1") (.string "  Hello "))).database =
      ⟨some ⟨true, [⟨1, "t1", "user", "  Hello ", 100⟩,
                    ⟨2, "t1", "assistant", "Hi there", 102⟩], 2⟩⟩ :=
  have h := C1_successful_turn stableOrder (calmEnv "Hi there") emptyStore
    ⟨some ⟨true, [⟨1, "t1", "user", "  Hello ", 100⟩], 1⟩⟩
    ⟨some ⟨true, [⟨1, "t1", "user", "  Hello ", 100⟩,
                  ⟨2, "t1", "assistant", "Hi there", 102⟩], 2⟩⟩
    (.string "t1") (.string "  Hello ") "t1" "  Hello " "Hi there" 1 2
    [⟨1, "t1", "user", "  Hello ", 100⟩] ⟨[some "Hi there"]⟩
    (by decide) (by decide) (by decide) rfl rfl (by decide)
  ⟨h.2.1, h.2.2.1⟩

/-- C4: on a valid request whose user append and history read succeed and
whose completion call fails with error `err`, the status is 401 when `err`
reports an invalid credential, 402 when it reports quota exhaustion and 500
otherwise; the store is left with the user row of this turn as its last row,
and after the completion call nothing more is done, so no assistant row is
written. -/
theorem C4_model_failure (order : RowOrder) (env : TurnEnv) (database db1 : Database)
    (tidV contentV : JsValue) (threadId content : String) (id1 : Nat)
    (messages : List Message) (err : JsError)
    (hvalid : validate tidV contentV = .ok (threadId, content))
    (h1 : database.saveMessage env.userSave threadId "user" (some content) = .ok (db1, id1))
    (h2 : db1.getMessagesByThread order env.historyRead threadId = .ok messages)
    (h3 : env.model (openaiMessages messages) = .error err) :
    (err.code = some "invalid_api_key" →
      (postMessages order env database (.props tidV contentV)).response.status = 401) ∧
    (err.code = some "insufficient_quota" →
      (postMessages order env database (.props tidV contentV)).response.status = 402) ∧
    (err.code ≠ some "invalid_api_key" → err.code ≠ some "insufficient_quota" →
      (postMessages order env database (.props tidV contentV)).response.status = 500) ∧
    (postMessages order env database (.props tidV contentV)).database = db1 ∧
    (postMessages order env database (.props tidV contentV)).effects =
      [.saveMessage threadId "user" (some content), .getMessagesByThread threadId,
       .chatCompletion (openaiMessages messages)] ∧
    ∃ conn conn1, database.db = some conn ∧ db1.db = some conn1 ∧
      conn1.rows = conn.rows ++ [⟨id1, threadId, "user", content, env.userSave.now⟩] := by
  have hout : postMessages order env database (.props tidV contentV) =
      ⟨db1, errorResponse env.development err,
        [.saveMessage threadId "user" (some content), .getMessagesByThread threadId,
         .chatCompletion (openaiMessages messages)]⟩ := by
    simp only [postMessages, hvalid, h1, h2, h3]
  obtain ⟨conn, hc, -, -, hd1⟩ := saveMessage_ok_rows _ _ _ _ _ _ _ h1
  rw [hout]
  refine ⟨?_, ?_, ?_, rfl, rfl, conn, _, hc, by rw [hd1], rfl⟩
  · intro h
    simp [errorResponse, h]
  · intro h
    simp [errorResponse, h]
  · intro hk hq
    simp [errorResponse, hk, hq]

/-- C4 at a concrete request: the endpoint reports an invalid credential. -/
theorem C4_model_failure_witness :
    (postMessages stableOrder (failingModelEnv (.api (some "invalid_api_key") "bad key"))
        emptyStore (.props (.string "t1") (.string "Hello"))).response.status = 401 ∧
    (postMessages stableOrder (failingModelEnv (.api (some "invalid_api_key") "bad key"))
        emptyStore (.props (.string "t1") (.string "Hello"))).database =
      ⟨some ⟨true, [⟨1, "t1", "user", "Hello", 100⟩], 1⟩⟩ :=
  have h := C4_model_failure stableOrder
    (failingModelEnv (.api (some "invalid_api_key") "bad key")) emptyStore
    ⟨some ⟨true, [⟨1, "t1", "user", "Hello", 100⟩], 1⟩⟩
    (.string "t1") (.string "Hello") "t1" "Hello" 1
    [⟨1, "t1", "user", "Hello", 100⟩] (.api (some "invalid_api_key") "bad key")
    (by decide) (by decide) (by decide) rfl
  ⟨h.1 rfl, h.2.2.2.1⟩

/-- C7: on a valid request whose completion call succeeds but whose assistant
append fails with error `err`, the handler answers like for any other storage
error: status 500, `error` the fixed text, `message` the fixed text (the
message of `err` only in development mode); the reply is not in the response,
and the store is left with the user row of this turn as its last row. -/
theorem C7_assistant_append_failure (order : RowOrder) (env : TurnEnv)
    (database db1 : Database) (tidV contentV : JsValue) (threadId content : String) (id1 : Nat)
    (messages : List Message) (completion : Completion) (reply : Option String)
    (err : JsError)
    (hvalid : validate tidV contentV = .ok (threadId, content))
    (h1 : database.saveMessage env.userSave threadId "user" (some content) = .ok (db1, id1))
    (h2 : db1.getMessagesByThread order env.historyRead threadId = .ok messages)
    (h3 : env.model (openaiMessages messages) = .ok completion)
    (hr : completion.choices.head? = some reply)
    (h4 : db1.saveMessage env.assistantSave threadId "assistant" reply = .error err) :
    (postMessages order env database (.props tidV contentV)).response =
      ⟨500, .error "Internal server error"
        (some (if env.development then err.message else "Something went wrong"))⟩ ∧
    (postMessages order env database (.props tidV contentV)).database = db1 ∧
    (postMessages order env database (.props tidV contentV)).effects =
      [.saveMessage threadId "user" (some content), .getMessagesByThread threadId,
       .chatCompletion (openaiMessages messages),
       .saveMessage threadId "assistant" reply] ∧
    ∃ conn conn1, database.db = some conn ∧ db1.db = some conn1 ∧
      conn1.rows = conn.rows ++ [⟨id1, threadId, "user", content, env.userSave.now⟩] := by
  have hout : postMessages order env database (.props tidV contentV) =
      ⟨db1, errorResponse env.development err,
        [.saveMessage threadId "user" (some content), .getMessagesByThread threadId,
         .chatCompletion (openaiMessages messages),
         .saveMessage threadId "assistant" reply]⟩ := by
    simp only [postMessages, hvalid, h1, h2, h3, hr, h4]
  obtain ⟨conn, hc, -, -, hd1⟩ := saveMessage_ok_rows _ _ _ _ _ _ _ h1
  rw [hout, errorResponse_local _ _ (saveMessage_error_local _ _ _ _ _ _ h4)]
  exact ⟨rfl, rfl, rfl, conn, _, hc, by rw [hd1], rfl⟩

/-- C7 at a concrete request: the disk is full at the second INSERT. -/
theorem C7_assistant_append_failure_witness :
    (postMessages stableOrder (failingAssistantSaveEnv "Hi there" ⟨"FULL", "disk is full"⟩)
        emptyStore (.props (.string "t1") (.string "Hello"))).response =
      ⟨500, .error "Internal server error" (some "Something went wrong")⟩ ∧
    (postMessages stableOrder (failingAssistantSaveEnv "Hi there" ⟨"FULL", "disk is full"⟩)
        emptyStore (.props (.string "t1") (.string "Hello"))).database =
      ⟨some ⟨true, [⟨1, "t1", "user", "Hello", 100⟩], 1⟩⟩ :=
  have h := C7_assistant_append_failure stableOrder
    (failingAssistantSaveEnv "Hi there" ⟨"FULL", "disk is full"⟩) emptyStore
    ⟨some ⟨true, [⟨1, "t1", "user", "Hello", 100⟩], 1⟩⟩
    (.string "t1") (.string "Hello") "t1" "Hello" 1
    [⟨1, "t1", "user", "Hello", 100⟩] ⟨[some "Hi there"]⟩ (some "Hi there")
    (.sqlite "FULL" "disk is full")
    (by decide) (by decide) (by decide) rfl rfl (by decide)
  ⟨h.1, h.2.1⟩

/-- C10: on a valid request the steps run in the order append, history,
completion call, append, and a failing step ends the request. If the user
append fails, nothing else is done, the store is unchanged and the answer is
the generic 500. If it succeeds and the history read fails, nothing else is
done, the store holds the user row and no assistant row, and the answer is
the generic 500. In both cases the completion endpoint is not invoked. -/
theorem C10_storage_failure_stops_turn (order : RowOrder) (env : TurnEnv)
    (database : Database) (tidV contentV : JsValue) (threadId content : String)
    (hvalid : validate tidV contentV = .ok (threadId, content)) :
    (∀ err, database.saveMessage env.userSave threadId "user" (some content) = .error err →
      postMessages order env database (.props tidV contentV) =
        ⟨database,
         ⟨500, .error "Internal server error"
            (some (if env.development then err.message else "Something went wrong"))⟩,
         [.saveMessage threadId "user" (some content)]⟩) ∧
    (∀ db1 id1 err,
      database.saveMessage env.userSave threadId "user" (some content) = .ok (db1, id1) →
      db1.getMessagesByThread order env.historyRead threadId = .error err →
      postMessages order env database (.props tidV contentV) =
        ⟨db1,
         ⟨500, .error "Internal server error"
            (some (if env.development then err.message else "Something went wrong"))⟩,
         [.saveMessage threadId "user" (some content), .getMessagesByThread threadId]⟩ ∧
      ∃ conn conn1, database.db = some conn ∧ db1.db = some conn1 ∧
        conn1.rows = conn.rows ++ [⟨id1, threadId, "user", content, env.userSave.now⟩]) ∧
    (∃ messages reply,
      (postMessages order env database (.props tidV contentV)).effects <+:
        [.saveMessage threadId "user" (some content), .getMessagesByThread threadId,
         .chatCompletion messages, .saveMessage threadId "assistant" reply]) := by
  refine ⟨?_, ?_, ?_⟩
  · intro err h1
    simp only [postMessages, hvalid, h1]
    rw [errorResponse_local _ _ (saveMessage_error_local _ _ _ _ _ _ h1)]
  · intro db1 id1 err h1 h2
    obtain ⟨conn, hc, -, -, hd1⟩ := saveMessage_ok_rows _ _ _ _ _ _ _ h1
    refine ⟨?_, conn, _, hc, by rw [hd1], rfl⟩
    simp only [postMessages, hvalid, h1, h2]
    rw [errorResponse_local _ _ (getMessagesByThread_error_local _ _ _ _ _ h2)]
  · cases h1 : database.saveMessage env.userSave threadId "user" (some content) with
    | error err =>
      refine ⟨[], none, ?_⟩
      simp only [postMessages, hvalid, h1]
      exact ⟨_, rfl⟩
    | ok p =>
      obtain ⟨db1, id1⟩ := p
      cases h2 : db1.getMessagesByThread order env.historyRead threadId with
      | error err =>
        refine ⟨[], none, ?_⟩
        simp only [postMessages, hvalid, h1, h2]
        exact ⟨_, rfl⟩
      | ok messages =>
        cases h3 : env.model (openaiMessages messages) with
        | error err =>
          refine ⟨openaiMessages messages, none, ?_⟩
          simp only [postMessages, hvalid, h1, h2, h3]
          exact ⟨_, rfl⟩
        | ok completion =>
          cases hr : completion.choices.head? with
          | none =>
            refine ⟨openaiMessages messages, none, ?_⟩
            simp only [postMessages, hvalid, h1, h2, h3, hr]
            exact ⟨_, rfl⟩
          | some reply =>
            refine ⟨openaiMessages messages, reply, ?_⟩
            cases h4 : db1.saveMessage env.assistantSave threadId "assistant" reply with
            | error err =>
              simp only [postMessages, hvalid, h1, h2, h3, hr, h4]
              exact ⟨[], rfl⟩
            | ok q =>
              simp only [postMessages, hvalid, h1, h2, h3, hr, h4]
              exact ⟨[], rfl⟩

/-- C10 at a concrete request: the database is locked at the first INSERT. -/
theorem C10_storage_failure_stops_turn_witness :
    postMessages stableOrder (failingUserSaveEnv ⟨"BUSY", "database is locked"⟩) emptyStore
        (.props (.string "t1") (.string "Hello")) =
      ⟨emptyStore, ⟨500, .error "Internal server error" (some "Something went wrong")⟩,
       [.saveMessage "t1" "user" (some "Hello")]⟩ :=
  (C10_storage_failure_stops_turn stableOrder
    (failingUserSaveEnv ⟨"BUSY", "database is locked"⟩) emptyStore
    (.string "t1") (.string "Hello") "t1" "Hello" (by decide)).1
    (.sqlite "BUSY" "database is locked") (by decide)

/-! ## The history sent to the completion endpoint -/

theorem getLast_of_perm_sorted (old : List Message) (new : Message) (messages : List Message)
    (hperm : messages.Perm (old ++ [new]))
    (hsorted : messages.Pairwise (fun a b => a.created_at ≤ b.created_at))
    (hlt : ∀ m ∈ old, m.created_at < new.created_at) :
    messages.getLast? = some new := by
  rcases List.eq_nil_or_concat messages with hnil | ⟨L, b, hL⟩
  · subst hnil
    have := hperm.length_eq
    simp at this
  · rw [List.concat_eq_append] at hL
    subst hL
    rw [List.getLast?_concat]
    have hb : b ∈ old ++ [new] := hperm.subset (by simp)
    have hn : new ∈ L ++ [b] := hperm.symm.subset (by simp)
    simp only [List.mem_append, List.mem_singleton] at hb hn
    rcases hb with hb | hb
    · rcases hn with hn | hn
      · have hle := (List.pairwise_append.mp hsorted).2.2 new hn b (by simp)
        have := hlt b hb
        omega
      · rw [hn]
    · rw [hb]

theorem insertionSort_ordered (l : List Message) :
    OrderedByCreatedAt l (l.insertionSort (fun a b => a.created_at ≤ b.created_at)) := by
  haveI : IsTotal Message (fun a b => a.created_at ≤ b.created_at) :=
    ⟨fun a b => Nat.le_total a.created_at b.created_at⟩
  haveI : IsTrans Message (fun a b => a.created_at ≤ b.created_at) :=
    ⟨fun _ _ _ h1 h2 => Nat.le_trans h1 h2⟩
  exact ⟨List.perm_insertionSort _ l, List.sorted_insertionSort _ l⟩

theorem stableOrder_lawful : stableOrder.Lawful := by
  intro selected
  exact insertionSort_ordered selected

/-- C3 (as amended): on a valid request whose user append and history read
succeed, the completion endpoint is called once, with the fixed system
instruction followed by the rows that `getMessagesByThread` returned after the
append, in the order returned, each mapped to its role and content. Those
rows are the earlier rows of the thread together with the row just appended,
each once, non-decreasing in `created_at`. The row just appended is the last
one when every earlier row of the thread has a strictly smaller `created_at`. -/
theorem C3_model_input (order : RowOrder) (horder : order.Lawful) (env : TurnEnv)
    (database db1 : Database) (tidV contentV : JsValue) (threadId content : String) (id1 : Nat)
    (messages : List Message)
    (hvalid : validate tidV contentV = .ok (threadId, content))
    (h1 : database.saveMessage env.userSave threadId "user" (some content) = .ok (db1, id1))
    (h2 : db1.getMessagesByThread order env.historyRead threadId = .ok messages) :
    modelCalls (postMessages order env database (.props tidV contentV)).effects =
      [systemPrompt :: messages.map (fun m => ⟨m.role, m.content⟩)] ∧
    ∃ conn, database.db = some conn ∧
      messages.Perm (conn.threadRows threadId ++
        [⟨id1, threadId, "user", content, env.userSave.now⟩]) ∧
      messages.Pairwise (fun a b => a.created_at ≤ b.created_at) ∧
      ((∀ m ∈ conn.threadRows threadId, m.created_at < env.userSave.now) →
        messages.getLast? = some ⟨id1, threadId, "user", content, env.userSave.now⟩) := by
  constructor
  · cases h3 : env.model (openaiMessages messages) with
    | error err =>
      simp only [postMessages, hvalid, h1, h2, h3]
      rfl
    | ok completion =>
      cases hr : completion.choices.head? with
      | none =>
        simp only [postMessages, hvalid, h1, h2, h3, hr]
        rfl
      | some reply =>
        cases h4 : db1.saveMessage env.assistantSave threadId "assistant" reply with
        | error err =>
          simp only [postMessages, hvalid, h1, h2, h3, hr, h4]
          rfl
        | ok q =>
          simp only [postMessages, hvalid, h1, h2, h3, hr, h4]
          rfl
  · obtain ⟨conn, hc, -, -, hd1⟩ := saveMessage_ok_rows _ _ _ _ _ _ _ h1
    subst hd1
    obtain ⟨conn1, hc1, -, -, hm⟩ := (getMessagesByThread_ok_iff _ _ _ _ _).mp h2
    simp only [Option.some.injEq] at hc1
    subst hc1
    have hrows : (Connection.mk true
        (conn.rows ++ [⟨id1, threadId, "user", content, env.userSave.now⟩]) id1).threadRows
          threadId =
        conn.threadRows threadId ++ [⟨id1, threadId, "user", content, env.userSave.now⟩] := by
      simp [Connection.threadRows, List.filter_append]
    rw [hrows] at hm
    obtain ⟨hperm, hsorted⟩ := horder
      (conn.threadRows threadId ++ [⟨id1, threadId, "user", content, env.userSave.now⟩])
    rw [← hm] at hperm hsorted
    exact ⟨conn, hc, hperm, hsorted,
      fun hlt => getLast_of_perm_sorted _ _ _ hperm hsorted hlt⟩

/-- C3 at a concrete request: a second turn on thread `t1`, the clock ahead of
the stored rows. -/
theorem C3_model_input_witness :
    modelCalls (postMessages stableOrder (calmEnv "r")
        ⟨some ⟨true, [⟨1, "t1", "user", "Hello", 50⟩, ⟨2, "t1", "assistant", "Hi", 51⟩], 2⟩⟩
        (.props (.string "t1") (.string "And then?"))).effects =
      [[systemPrompt, ⟨"user", "Hello"⟩, ⟨"assistant", "Hi"⟩, ⟨"user", "And then?"⟩]] :=
  (C3_model_input stableOrder stableOrder_lawful (calmEnv "r")
    ⟨some ⟨true, [⟨1, "t1", "user", "Hello", 50⟩, ⟨2, "t1", "assistant", "Hi", 51⟩], 2⟩⟩
    ⟨some ⟨true, [⟨1, "t1", "user", "Hello", 50⟩, ⟨2, "t1", "assistant", "Hi", 51⟩,
                  ⟨3, "t1", "user", "And then?", 100⟩], 3⟩⟩
    (.string "t1") (.string "And then?") "t1" "And then?" 3
    [⟨1, "t1", "user", "Hello", 50⟩, ⟨2, "t1", "assistant", "Hi", 51⟩,
     ⟨3, "t1", "user", "And then?", 100⟩]
    (by decide) (by decide) (by decide)).1

/-- C3 as stated fails: thread `t1` holds an earlier turn stamped 200 and 201,
and the request arrives when the clock reads 100 (the wall clock was set
back). The history read after the append is ordered by `created_at`, so the
message just appended comes first, not last, in what is sent to the endpoint. -/
theorem C3_counterexample :
    modelCalls (postMessages stableOrder (calmEnv "r") laterStore
        (.props (.string "t1") (.string "And then?"))).effects =
      [[systemPrompt, ⟨"user", "And then?"⟩, ⟨"user", "Hello"⟩, ⟨"assistant", "Hi"⟩]] ∧
    ([systemPrompt, ⟨"user", "And then?"⟩, ⟨"user", "Hello"⟩,
        (⟨"assistant", "Hi"⟩ : ChatMessage)].getLast? ≠ some ⟨"user", "And then?"⟩) := by
  decide

/-! ## What one request does to the table -/

theorem errorResponse_status_ne_200 (development : Bool) (err : JsError) :
    (errorResponse development err).status ≠ 200 := by
  unfold errorResponse
  split
  · simp
  · split <;> simp

theorem postMessages_step (order : RowOrder) (env : TurnEnv) (database : Database)
    (body : Body) :
    ((postMessages order env database body).database = database ∧
      (postMessages order env database body).response.status ≠ 200) ∨
    ∃ conn threadId content,
      body = .props (.string threadId) (.string content) ∧ ¬ WhitespaceOnly content ∧
      database.db = some conn ∧
      (((postMessages order env database body).response.status ≠ 200 ∧
        (postMessages order env database body).database =
          ⟨some ⟨true,
            conn.rows ++ [⟨conn.nextId, threadId, "user", content, env.userSave.now⟩],
            conn.nextId⟩⟩) ∨
       ∃ r id2, conn.nextId < id2 ∧
        (postMessages order env database body).response.status = 200 ∧
        (postMessages order env database body).database =
          ⟨some ⟨true,
            conn.rows ++ [⟨conn.nextId, threadId, "user", content, env.userSave.now⟩,
                          ⟨id2, threadId, "assistant", r, env.assistantSave.now⟩],
            id2⟩⟩) := by
  cases body with
  | null =>
    left
    exact ⟨rfl, errorResponse_status_ne_200 _ _⟩
  | props tidV contentV =>
    cases hv : validate tidV contentV with
    | error e =>
      left
      rw [validate_error_outcome order env database tidV contentV e hv]
      exact ⟨rfl, by simp⟩
    | ok p =>
      obtain ⟨threadId, content⟩ := p
      obtain ⟨rfl, rfl, -, hw⟩ := (validate_ok_iff _ _ _ _).mp hv
      have hw : ¬ WhitespaceOnly content := fun h => hw ((jsTrim_eq_empty_iff _).mpr h)
      cases h1 : database.saveMessage env.userSave threadId "user" (some content) with
      | error err =>
        left
        have hout : postMessages order env database
            (.props (.string threadId) (.string content)) =
            ⟨database, errorResponse env.development err,
              [.saveMessage threadId "user" (some content)]⟩ := by
          simp only [postMessages, hv, h1]
        rw [hout]
        exact ⟨rfl, errorResponse_status_ne_200 _ _⟩
      | ok q =>
        obtain ⟨db1, id1⟩ := q
        obtain ⟨conn, hc, -, hid1, hd1⟩ := saveMessage_ok_rows _ _ _ _ _ _ _ h1
        subst hid1
        right
        refine ⟨conn, threadId, content, rfl, hw, hc, ?_⟩
        cases h2 : db1.getMessagesByThread order env.historyRead threadId with
        | error err =>
          left
          simp only [postMessages, hv, h1, h2]
          exact ⟨errorResponse_status_ne_200 _ _, hd1⟩
        | ok messages =>
          cases h3 : env.model (openaiMessages messages) with
          | error err =>
            left
            simp only [postMessages, hv, h1, h2, h3]
            exact ⟨errorResponse_status_ne_200 _ _, hd1⟩
          | ok completion =>
            cases hr : completion.choices.head? with
            | none =>
              left
              simp only [postMessages, hv, h1, h2, h3, hr]
              exact ⟨errorResponse_status_ne_200 _ _, hd1⟩
            | some reply =>
              cases h4 : db1.saveMessage env.assistantSave threadId "assistant" reply with
              | error err =>
                left
                simp only [postMessages, hv, h1, h2, h3, hr, h4]
                exact ⟨errorResponse_status_ne_200 _ _, hd1⟩
              | ok q2 =>
                obtain ⟨db2, id2⟩ := q2
                right
                obtain ⟨conn1, text, hc1, -, -, ht, -, hid2, hd2⟩ :=
                  (saveMessage_ok_iff _ _ _ _ _ _ _).mp h4
                subst hd1
                simp only [Option.some.injEq] at hc1
                subst hc1
                refine ⟨text, id2, ?_, ?_, ?_⟩
                · rw [hid2]
                  exact seq_lt_nextId
                    ⟨true, conn.rows ++
                      [⟨conn.nextId, threadId, "user", content, env.userSave.now⟩],
                      conn.nextId⟩
                · simp only [postMessages, hv, h1, h2, h3, hr, h4]
                · simp only [postMessages, hv, h1, h2, h3, hr, h4]
                  rw [hd2, hid2]
                  simp

/-! ## close -/

/-- C8 (as amended): `close()` before `initialize()` resolves without touching
any connection and leaves the object as it is. On a store whose handle is
open, `close()` invokes the handle's close once and, when the driver reports
no failure, resolves; the handle, now closed, stays in `this.db` with its rows
untouched. Because `this.db` is never cleared, a further `close()` invokes the
handle's close again: the promise settles as the driver answers for a closed
handle, which is a rejection, and the object is left as the first `close()`
left it. A store on which `initialize()` resolved has an open handle. -/
theorem C8_close (conn : Connection) (hopen : conn.isOpen = true)
    (failure failure' : Option SqliteFailure) :
    Database.new.close failure = ⟨Database.new, none, false⟩ ∧
    (Database.mk (some conn)).close none =
      ⟨⟨some ⟨false, conn.rows, conn.seq⟩⟩, none, true⟩ ∧
    ((Database.mk (some conn)).close none).database.close failure' =
      ⟨((Database.mk (some conn)).close none).database,
       some (.sqlite "MISUSE" "SQLITE_MISUSE: Database is closed"), true⟩ ∧
    (∀ env : OpenEnv, ( Database.new.initialize env).2 = none →
      ∃ c, ( Database.new.initialize env).1 = ⟨some c⟩ ∧ c.isOpen = true ∧
        c.rows = env.rows) := by
  refine ⟨rfl, ?_, ?_, ?_⟩
  · simp [Database.close, hopen]
  · simp [Database.close, hopen]
  · intro env h
    unfold Database.initialize at h ⊢
    cases ho : env.openFailure with
    | some f => simp [ho] at h
    | none =>
      cases hc : env.createFailure with
      | some f => simp [ho, hc] at h
      | none => exact ⟨_, rfl, rfl, rfl⟩

/-- C8 at a concrete store: a freshly initialized, empty store is closed once. -/
theorem C8_close_witness :
    ( Database.new.initialize ⟨[], 0, none, none⟩).1.close none =
      ⟨⟨some ⟨false, [], 0⟩⟩, none, true⟩ :=
  (C8_close ⟨true, [], 0⟩ rfl none none).2.1

/-- C8 as stated fails: on a freshly initialized store the first `close()`
resolves, and the second `close()` invokes the connection's close again and
rejects with the driver's error for a closed handle. -/
theorem C8_counterexample :
    (( Database.new.initialize ⟨[], 0, none, none⟩).1.close none).rejected = none ∧
    ((( Database.new.initialize ⟨[], 0, none, none⟩).1.close none).database.close
        none).driverCloseCalled = true ∧
    ((( Database.new.initialize ⟨[], 0, none, none⟩).1.close none).database.close
        none).rejected = some (.sqlite "MISUSE" "SQLITE_MISUSE: Database is closed") := by
  decide

/-! ## Invariant of the message log -/

theorem not_whitespaceOnly_ne_empty (s : String) (h : ¬ WhitespaceOnly s) : s ≠ "" := by
  intro he
  subst he
  exact h (by decide)

theorem postMessages_invariant (order : RowOrder) (env : TurnEnv) (database : Database)
    (body : Body) (h : MessageLogInvariant database) :
    MessageLogInvariant (postMessages order env database body).database := by
  rcases postMessages_step order env database body with
    ⟨hd, -⟩ | ⟨conn, threadId, content, -, hw, hc, ⟨-, hd⟩ | ⟨r, id2, -, -, hd⟩⟩
  · rw [hd]
    exact h
  · rw [hd]
    intro conn' hc' m hm
    simp only [Option.some.injEq] at hc'
    subst hc'
    simp only [List.mem_append, List.mem_singleton] at hm
    rcases hm with hm | hm
    · exact h conn hc m hm
    · subst hm
      exact ⟨Or.inl rfl, fun _ => ⟨not_whitespaceOnly_ne_empty _ hw, hw⟩⟩
  · rw [hd]
    intro conn' hc' m hm
    simp only [Option.some.injEq] at hc'
    subst hc'
    simp only [List.mem_append, List.mem_cons, List.mem_singleton, List.not_mem_nil,
      or_false] at hm
    rcases hm with hm | hm | hm
    · exact h conn hc m hm
    · subst hm
      exact ⟨Or.inl rfl, fun _ => ⟨not_whitespaceOnly_ne_empty _ hw, hw⟩⟩
    · subst hm
      have hne : ("assistant" : String) ≠ "user" := by decide
      exact ⟨Or.inr rfl, fun hu => absurd hu hne⟩

theorem run_invariant (order : RowOrder) (turns : List Turn) (database : Database)
    (h : MessageLogInvariant database) : MessageLogInvariant (run order database turns) := by
  induction turns generalizing database with
  | nil => exact h
  | cons t ts ih => exact ih _ (postMessages_invariant order t.env database t.body h)

/-- C9 (as amended): starting from an empty table, after any sequence of
requests, whatever the endpoint replies, every stored row has role `user` or
`assistant`, and every user row has content that is not empty and not
whitespace-only. The assistant row holds the reply as the endpoint gave it. -/
theorem C9_log_invariant (order : RowOrder) (database : Database) (turns : List Turn)
    (hempty : ∀ conn, database.db = some conn → conn.rows = []) :
    MessageLogInvariant (run order database turns) := by
  apply run_invariant
  intro conn hc m hm
  rw [hempty conn hc] at hm
  simp at hm

/-- C9 at a concrete run: one turn on the empty store. -/
theorem C9_log_invariant_witness :
    MessageLogInvariant
      (run stableOrder emptyStore [⟨calmEnv "Hi", .props (.string "t1") (.string "Hello")⟩]) :=
  C9_log_invariant stableOrder emptyStore _ (fun conn h => by cases h; rfl)

/-- C9 as stated fails: on the empty store, a valid request to which the
endpoint replies with the empty string leaves an assistant row whose content
is the empty string. -/
theorem C9_counterexample :
    run stableOrder emptyStore [⟨calmEnv "", .props (.string "t1") (.string "Hello")⟩] =
      ⟨some ⟨true, [⟨1, "t1", "user", "Hello", 100⟩, ⟨2, "t1", "assistant", "", 102⟩], 2⟩⟩ := by
  decide

/-! ## The order of the history -/

theorem alternating_length (n : Nat) : (alternating n).length = 2 * n := by
  induction n with
  | zero => rfl
  | succ k ih =>
    simp only [alternating, List.length_cons, ih]
    omega

theorem run_thread_roles (order : RowOrder) (threadId : String) (turns : List Turn) :
    ∀ (start : Database) (conn : Connection),
      AllSucceedOn order threadId start turns →
      run order start turns = ⟨some conn⟩ →
      ∃ c, start.db = some c ∧
        (conn.threadRows threadId).map (fun m => m.role) =
          (c.threadRows threadId).map (fun m => m.role) ++ alternating turns.length := by
  induction turns with
  | nil =>
    intro start conn _ hrun
    refine ⟨conn, ?_, ?_⟩
    · simp only [run] at hrun
      rw [hrun]
    · simp [alternating]
  | cons t ts ih =>
    intro start conn hall hrun
    obtain ⟨⟨contentV, hbody⟩, hstatus, hrest⟩ := hall
    simp only [run] at hrun
    obtain ⟨c1, hc1, hroles⟩ := ih _ conn hrest hrun
    rcases postMessages_step order t.env start t.body with
      ⟨-, hne⟩ | ⟨c, thread, content, hb, -, hc, ⟨hne, -⟩ | ⟨r, id2, -, -, hd⟩⟩
    · exact absurd hstatus hne
    · exact absurd hstatus hne
    · rw [hbody] at hb
      simp only [Body.props.injEq, JsValue.string.injEq] at hb
      obtain ⟨hthread, -⟩ := hb
      subst hthread
      rw [hd] at hc1
      simp only [Option.some.injEq] at hc1
      subst hc1
      refine ⟨c, hc, ?_⟩
      rw [hroles]
      simp [Connection.threadRows, List.filter_append, alternating]

theorem orderedInsert_byCreatedAtThenId (x : Message) (sorted : List Message)
    (hs : sorted.Pairwise ByCreatedAtThenId) (hx : ∀ y ∈ sorted, x.id < y.id) :
    (sorted.orderedInsert (fun a b => a.created_at ≤ b.created_at) x).Pairwise
      ByCreatedAtThenId := by
  induction sorted with
  | nil => simp
  | cons b t ih =>
    obtain ⟨hb, ht⟩ := List.pairwise_cons.mp hs
    have hxb : x.id < b.id := hx b (by simp)
    have hxt : ∀ y ∈ t, x.id < y.id := fun y hy => hx y (by simp [hy])
    simp only [List.orderedInsert]
    split
    · rename_i hle
      refine List.pairwise_cons.mpr ⟨?_, hs⟩
      intro y hy
      have hby : b.created_at ≤ y.created_at := by
        rcases List.mem_cons.mp hy with h | h
        · rw [h]
        · rcases hb y h with h1 | ⟨h1, -⟩
          · exact Nat.le_of_lt h1
          · exact Nat.le_of_eq h1
      have hid : x.id < y.id := hx y hy
      unfold ByCreatedAtThenId
      omega
    · rename_i hnle
      refine List.pairwise_cons.mpr ⟨?_, ih ht hxt⟩
      intro y hy
      rcases (List.mem_orderedInsert _).mp hy with h | h
      · rw [h]
        unfold ByCreatedAtThenId
        omega
      · exact hb y h

theorem insertionSort_byCreatedAtThenId (rows : List Message)
    (hrows : rows.Pairwise (fun a b => a.id < b.id)) :
    (rows.insertionSort (fun a b => a.created_at ≤ b.created_at)).Pairwise
      ByCreatedAtThenId := by
  induction rows with
  | nil => simp
  | cons x xs ih =>
    obtain ⟨hx, hxs⟩ := List.pairwise_cons.mp hrows
    simp only [List.insertionSort]
    apply orderedInsert_byCreatedAtThenId x _ (ih hxs)
    intro y hy
    exact hx y ((List.mem_insertionSort _).mp hy)

theorem postMessages_rowid_ascending (order : RowOrder) (env : TurnEnv) (database : Database)
    (body : Body)
    (h : ∀ c, database.db = some c → c.rows.Pairwise (fun a b => a.id < b.id)) :
    ∀ c, (postMessages order env database body).database.db = some c →
      c.rows.Pairwise (fun a b => a.id < b.id) := by
  rcases postMessages_step order env database body with
    ⟨hd, -⟩ | ⟨conn, threadId, content, -, -, hc, ⟨-, hd⟩ | ⟨r, id2, hlt, -, hd⟩⟩
  · rw [hd]
    exact h
  · rw [hd]
    intro c hc'
    simp only [Option.some.injEq] at hc'
    subst hc'
    refine List.pairwise_append.mpr ⟨h conn hc, by simp, ?_⟩
    intro a ha b hb
    simp only [List.mem_singleton] at hb
    subst hb
    exact id_lt_nextId conn a ha
  · rw [hd]
    intro c hc'
    simp only [Option.some.injEq] at hc'
    subst hc'
    refine List.pairwise_append.mpr ⟨h conn hc, by simpa using hlt, ?_⟩
    intro a ha b hb
    have := id_lt_nextId conn a ha
    simp only [List.mem_cons, List.mem_singleton, List.not_mem_nil, or_false] at hb
    rcases hb with hb | hb
    · subst hb
      exact this
    · subst hb
      exact Nat.lt_trans this hlt

theorem run_rowid_ascending (order : RowOrder) (turns : List Turn) (start : Database)
    (h : ∀ c, start.db = some c → c.rows.Pairwise (fun a b => a.id < b.id)) :
    ∀ c, (run order start turns).db = some c →
      c.rows.Pairwise (fun a b => a.id < b.id) := by
  induction turns generalizing start with
  | nil => exact h
  | cons t ts ih => exact ih _ (postMessages_rowid_ascending order t.env start t.body h)

theorem stableOrder_of_nondecreasing (rows : List Message)
    (h : rows.Pairwise (fun a b => a.created_at ≤ b.created_at)) : stableOrder rows = rows :=
  List.Sorted.insertionSort_eq h

/-- C5 (as amended): on an open store, with the engine returning rows of equal
`created_at` in rowid order as SQLite does, `getMessagesByThread(threadId)`
returns exactly the rows whose thread is `threadId`, each once, ordered by
`created_at` ascending with ties broken by `id` ascending (the table being in
rowid order, which every run from a table in rowid order keeps). This is the
insertion order when `created_at` is non-decreasing in insertion order. In
particular, after N successful turns on a fresh thread it returns 2N messages;
in insertion order these alternate user, assistant, and that is the order
returned when their timestamps are non-decreasing, also when several rows
share the same `created_at`. -/
theorem C5_history_order (conn : Connection) (hopen : conn.isOpen = true)
    (threadId : String) :
    ∃ messages,
      (Database.mk (some conn)).getMessagesByThread stableOrder none threadId =
        .ok messages ∧
      messages.Perm (conn.threadRows threadId) ∧
      (∀ m, m ∈ messages ↔ m ∈ conn.rows ∧ m.thread_id = threadId) ∧
      (conn.rows.Pairwise (fun a b => a.id < b.id) →
        messages.Pairwise ByCreatedAtThenId) ∧
      ((conn.threadRows threadId).Pairwise (fun a b => a.created_at ≤ b.created_at) →
        messages = conn.threadRows threadId) ∧
      (∀ (start : Database) (turns : List Turn),
        (∀ c, start.db = some c → c.threadRows threadId = []) →
        AllSucceedOn stableOrder threadId start turns →
        run stableOrder start turns = ⟨some conn⟩ →
        messages.length = 2 * turns.length ∧
        (conn.threadRows threadId).map (fun m => m.role) = alternating turns.length ∧
        ((conn.threadRows threadId).Pairwise (fun a b => a.created_at ≤ b.created_at) →
          messages.map (fun m => m.role) = alternating turns.length) ∧
        ((∀ c, start.db = some c → c.rows.Pairwise (fun a b => a.id < b.id)) →
          conn.rows.Pairwise (fun a b => a.id < b.id))) := by
  obtain ⟨hperm, -⟩ := stableOrder_lawful (conn.threadRows threadId)
  refine ⟨stableOrder (conn.threadRows threadId), ?_, hperm, ?_, ?_,
    stableOrder_of_nondecreasing _, ?_⟩
  · simp [Database.getMessagesByThread, hopen]
  · intro m
    rw [hperm.mem_iff]
    simp [Connection.threadRows]
  · intro hrows
    exact insertionSort_byCreatedAtThenId _ (hrows.filter _)
  · intro start turns hfresh hall hrun
    obtain ⟨c, hc, hroles⟩ := run_thread_roles stableOrder threadId turns start conn hall hrun
    rw [hfresh c hc] at hroles
    simp only [List.map_nil, List.nil_append] at hroles
    refine ⟨?_, hroles, ?_, ?_⟩
    · rw [hperm.length_eq, ← alternating_length, ← hroles, List.length_map]
    · intro h
      rw [stableOrder_of_nondecreasing _ h, hroles]
    · intro hstart
      exact run_rowid_ascending stableOrder turns start hstart conn (by rw [hrun])

/-- C5 at a concrete store: the two rows of one turn, both stamped 100, come
back in the order they were inserted. -/
theorem C5_history_order_witness :
    ∃ messages,
      (Database.mk (some ⟨true, [⟨1, "t1", "user", "Hello", 100⟩,
          ⟨2, "t1", "assistant", "Hi", 100⟩], 2⟩)).getMessagesByThread
        stableOrder none "t1" = .ok messages ∧
      messages = [⟨1, "t1", "user", "Hello", 100⟩, ⟨2, "t1", "assistant", "Hi", 100⟩] :=
  have h := C5_history_order
    ⟨true, [⟨1, "t1", "user", "Hello", 100⟩, ⟨2, "t1", "assistant", "Hi", 100⟩], 2⟩ rfl "t1"
  h.elim fun messages hm => ⟨messages, hm.1, hm.2.2.2.2.1 (by decide)⟩

/-- C5 as stated fails: the result is ordered by `created_at`, which is not
always the insertion order. One successful turn on a fresh thread of the empty
store, the wall clock set back between its two INSERTs (100, then 99): the
history comes back assistant first, not user then assistant as appended. -/
theorem C5_counterexample :
    (postMessages stableOrder (steppedBackEnv "Hi") emptyStore
        (.props (.string "t1") (.string "Hello"))).response.status = 200 ∧
    (postMessages stableOrder (steppedBackEnv "Hi") emptyStore
        (.props (.string "t1") (.string "Hello"))).database =
      ⟨some ⟨true, [⟨1, "t1", "user", "Hello", 100⟩, ⟨2, "t1", "assistant", "Hi", 99⟩], 2⟩⟩ ∧
    (postMessages stableOrder (steppedBackEnv "Hi") emptyStore
        (.props (.string "t1") (.string "Hello"))).database.getMessagesByThread
          stableOrder none "t1" =
      .ok [⟨2, "t1", "assistant", "Hi", 99⟩, ⟨1, "t1", "user", "Hello", 100⟩] := by
  decide

end ChatApi
